import Mathlib

/-!
# Verification of the worker-onboarding document/experience pipeline

Shallow embedding of the core logic of the repository:

* `src/services/document_verifier.py` — `normalize_name`, `fuzzy_match_names`
  (difflib `SequenceMatcher.ratio`), `normalize_date`, `exact_match_dob`,
  `verify_documents`;
* `src/db/crud.py` — `calculate_total_experience_duration` and the
  years-int / years-float fields written by `save_experience`;
* `src/api/form.py` — the persistence step after verification
  (`process_ocr_llm_verification`).

Python machine floats are modelled by `ℚ` (exact for the short decimal
values that occur here), Python exceptions by `Option` (`none` = raised),
and Python strings by `String` / `List Char` restricted to ASCII, which is
the data domain of this pipeline.
-/

set_option maxRecDepth 1000000

namespace Poc

/-- ASCII whitespace recognised by Python `str.strip` and regex `\s`
(space, tab, newline, carriage return, vertical tab, form feed). -/
def pyIsSpace (c : Char) : Bool :=
  c = ' ' || c = '\t' || c = '\n' || c = '\r' || c = '\x0b' || c = '\x0c'

/-- Python `str.strip()`: drop leading and trailing whitespace. -/
def stripList (l : List Char) : List Char :=
  ((l.dropWhile pyIsSpace).reverse.dropWhile pyIsSpace).reverse

/-- One step of collapsing whitespace runs: the flag records whether the
previous character emitted was part of a whitespace run. -/
def collapseWsAux : Bool → List Char → List Char
  | _, [] => []
  | prevSpace, c :: cs =>
    if pyIsSpace c then
      if prevSpace then collapseWsAux true cs
      else ' ' :: collapseWsAux true cs
    else c :: collapseWsAux false cs

/-- Python `re.sub(r'\s+', ' ', s)`: replace each maximal whitespace run
by a single space. -/
def collapseWs (l : List Char) : List Char := collapseWsAux false l

/-- `normalize_name` from `src/services/document_verifier.py`:
uppercase, strip, drop characters outside `[A-Z\s]`, collapse whitespace
runs to single spaces, strip again.  Empty input yields `""`. -/
def normalize_name (s : String) : String :=
  if s = "" then ""
  else
    let l := s.toList.map Char.toUpper
    let l := stripList l
    let l := l.filter (fun c => ('A' ≤ c && c ≤ 'Z') || pyIsSpace c)
    let l := collapseWs l
    String.mk (stripList l)

/-! ## difflib `SequenceMatcher` (no junk: both strings are far below the
autojunk limit of 200 characters, and no `isjunk` predicate is passed). -/

/-- `(l.drop lo).take (hi - lo)` — the window `l[lo:hi]`. -/
def slice (l : List Char) (lo hi : ℕ) : List Char := (l.drop lo).take (hi - lo)

/-- Length of the longest common prefix of two lists. -/
def commonPrefixLen : List Char → List Char → ℕ
  | a :: as, b :: bs => if a = b then commonPrefixLen as bs + 1 else 0
  | _, _ => 0

/-- Length of the longest common suffix of two lists.  This is the value
`j2len[j]` that `SequenceMatcher.find_longest_match` maintains: the length
of the longest matching run that ends at the current pair of positions and
stays inside the current window. -/
def commonSuffixLen (a b : List Char) : ℕ :=
  commonPrefixLen a.reverse b.reverse

/-- `SequenceMatcher.find_longest_match(alo, ahi, blo, bhi)` with no junk:
scan `i` ascending then `j` ascending, track the longest run ending at
`(i, j)` inside the window, and keep the first strictly longer run found.
Returns `(i, j, size)` of the winning block (`(alo, blo, 0)` if none). -/
def findLongestMatch (a b : List Char) (alo ahi blo bhi : ℕ) : ℕ × ℕ × ℕ :=
  (List.range' alo (ahi - alo)).foldl
    (fun best i =>
      (List.range' blo (bhi - blo)).foldl
        (fun best j =>
          let k := commonSuffixLen (slice a alo (i + 1)) (slice b blo (j + 1))
          if best.2.2 < k then (i + 1 - k, j + 1 - k, k) else best)
        best)
    (alo, blo, 0)

/-- Total size of all matching blocks found by the recursive
decomposition of `SequenceMatcher.get_matching_blocks`: take the longest
match of the window, recurse on the part before it and the part after it.
`fuel` dominates the window perimeter, which shrinks at every step. -/
def matchingTotal : ℕ → List Char → List Char → ℕ → ℕ → ℕ → ℕ → ℕ
  | 0, _, _, _, _, _, _ => 0
  | fuel + 1, a, b, alo, ahi, blo, bhi =>
    let best := findLongestMatch a b alo ahi blo bhi
    let i := best.1
    let j := best.2.1
    let k := best.2.2
    if k = 0 then 0
    else
      k + matchingTotal fuel a b alo i blo j
        + matchingTotal fuel a b (i + k) ahi (j + k) bhi

/-- `SequenceMatcher(None, a, b).ratio()` = `2*M/T` where `M` is the total
matched size and `T` the total length; `1.0` when both strings are empty.
The quotient is written with `mkRat` (same rational value as `2*M/T`) so
that the kernel can evaluate it on concrete inputs. -/
def smRatio (a b : List Char) : ℚ :=
  let t := a.length + b.length
  if t = 0 then 1
  else mkRat (2 * (matchingTotal t a b 0 a.length 0 b.length : ℤ)) t

/-- The Python default threshold `0.85` of `fuzzy_match_names`
(`= 17/20`; see the theorem on claim C3 for the link to `17/20`). -/
def defaultThreshold : ℚ := mkRat 17 20

/-- `fuzzy_match_names` from `src/services/document_verifier.py`.
Empty input on either side → `(false, 0)`; equal normalized forms →
`(true, 1)`; otherwise the `SequenceMatcher` ratio is compared against the
threshold (the call sites use the default `0.85 = 17/20`). -/
def fuzzy_match_names (name1 name2 : String) (threshold : ℚ) : Bool × ℚ :=
  if name1 = "" || name2 = "" then (false, 0)
  else
    let norm1 := normalize_name name1
    let norm2 := normalize_name name2
    if norm1 = norm2 then (true, 1)
    else
      let similarity := smRatio norm1.toList norm2.toList
      (decide (threshold ≤ similarity), similarity)

/-! ## Date normalization (`normalize_date`, `exact_match_dob`) -/

/-- `str.zfill(2)`: left-pad with zeros to width 2, keeping a leading
sign in front of the inserted zeros. -/
def pyZfill2 (l : List Char) : List Char :=
  if 2 ≤ l.length then l
  else
    match l with
    | [] => ['0', '0']
    | [c] => if c = '+' || c = '-' then [c, '0'] else ['0', c]
    | _ => l

/-- Numeric value of a list of ASCII digits. -/
def natOfDigits (l : List Char) : ℕ :=
  l.foldl (fun acc c => acc * 10 + (c.toNat - '0'.toNat)) 0

/-- Python `int(s)` for a string: strip whitespace, optional sign, one or
more ASCII digits; `none` models the `ValueError` raised otherwise.
(Underscore separators accepted by Python would need a digit on both
sides; the two-character strings this is applied to cannot contain a
well-placed underscore, so they are not modelled.) -/
def pyIntOfString (l : List Char) : Option Int :=
  let t := stripList l
  let core : List Char → Option Int := fun ds =>
    if ds ≠ [] && ds.all Char.isDigit then some (natOfDigits ds) else none
  match t with
  | '+' :: ds => core ds
  | '-' :: ds => (core ds).map Int.neg
  | ds => core ds

/-- Split a character list at every `'-'`, keeping empty parts
(Python `str.split('-')`; the empty string gives a single empty part). -/
def splitHyphen : List Char → List (List Char)
  | [] => [[]]
  | c :: cs =>
    if c = '-' then [] :: splitHyphen cs
    else
      match splitHyphen cs with
      | p :: ps => (c :: p) :: ps
      | [] => [[c]]

/-- The intermediate string `normalize_date` builds before splitting:
`str(s).strip()` followed by replacing `/`, `.` and space with `-`.
This (not the original input) is what the malformed-input path returns. -/
def dateCanon (s : String) : List Char :=
  (stripList s.toList).map fun c => if c = '/' || c = '.' || c = ' ' then '-' else c

/-- `normalize_date` from `src/services/document_verifier.py`.
`none` models the uncaught `ValueError` from `int(year)` when the year
part has exactly two characters but is not an integer literal.
Empty input → `""`; not exactly 3 parts → the canonicalized string;
4-digit first part → `YYYY-MM-DD` reordered to `DD-MM-YYYY`; otherwise
`DD-MM-YYYY` with zero-padded day/month and two-digit years expanded to
`19xx` (year value > 50) or `20xx` (otherwise). -/
def normalize_date (s : String) : Option String :=
  if s = "" then some ""
  else
    match splitHyphen (dateCanon s) with
    | [p0, p1, p2] =>
      if p0.length = 4 && p0.all Char.isDigit then
        some (String.mk (pyZfill2 p2 ++ '-' :: pyZfill2 p1 ++ '-' :: p0))
      else
        let day := pyZfill2 p0
        let month := pyZfill2 p1
        if p2.length = 2 then
          match pyIntOfString p2 with
          | none => none
          | some yi =>
            let year := if 50 < yi then '1' :: '9' :: p2 else '2' :: '0' :: p2
            some (String.mk (day ++ '-' :: month ++ '-' :: year))
        else some (String.mk (day ++ '-' :: month ++ '-' :: p2))
    | _ => some (String.mk (dateCanon s))

/-- `exact_match_dob` from `src/services/document_verifier.py`: empty
input on either side → mismatch with the missing-data message; otherwise
exact string equality of the two normalized dates.  `none` propagates a
`ValueError` raised by `normalize_date`. -/
def exact_match_dob (dob1 dob2 : String) : Option (Bool × String) :=
  if dob1 = "" || dob2 = "" then some (false, "One or both DOBs are missing")
  else do
    let norm1 ← normalize_date dob1
    let norm2 ← normalize_date dob2
    if norm1 = norm2 then some (true, "DOBs match")
    else some (false, "DOB mismatch: " ++ norm1 ++ " vs " ++ norm2)

/-! ## Python `round` (banker's rounding) and float formatting -/

/-- Python `round(x)` for a rational `x`: round half to even.
With `f = ⌊x⌋` and `r = x.num - f * x.den` we have `x = f + r/x.den`
and `0 ≤ r < x.den`, so the fractional part is compared with `1/2` by
comparing `2*r` with `x.den`. -/
def roundHalfEven (x : ℚ) : ℤ :=
  let f := ⌊x⌋
  let r := x.num - f * (x.den : ℤ)
  if 2 * r < (x.den : ℤ) then f
  else if (x.den : ℤ) < 2 * r then f + 1
  else if f % 2 = 0 then f else f + 1

/-- `q * n` written via `mkRat` so the kernel can evaluate it. -/
def ratMulNat (q : ℚ) (n : ℕ) : ℚ := mkRat (q.num * n) q.den

/-- Python `round(x, 3)` (used for the stored `name_similarity`):
round `1000*x` half to even, divide by `1000`. -/
def pyRound3 (x : ℚ) : ℚ := mkRat (roundHalfEven (ratMulNat x 1000)) 1000

/-- Python `round(x, 1)` (used for `experience_years_float`). -/
def pyRound1 (x : ℚ) : ℚ := mkRat (roundHalfEven (ratMulNat x 10)) 10

/-- Python `int(q)` on a float value: truncation toward zero. -/
def pyIntTrunc (q : ℚ) : ℤ := q.num.tdiv (q.den : ℤ)

/-- Decimal digits of a natural number (most significant first). -/
def digitsOfNat (n : ℕ) : List Char :=
  (Nat.toDigits 10 n)

/-- Python `f"{x:.2%}"` for a non-negative rational: `x*100` rendered
with two decimal places (half-even) and a trailing percent sign. -/
def formatPercent2 (x : ℚ) : List Char :=
  let n := roundHalfEven (ratMulNat x 10000)
  let whole := n.toNat / 100
  let frac := n.toNat % 100
  digitsOfNat whole ++ '.' :: digitsOfNat (frac / 10) ++ digitsOfNat (frac % 10) ++ ['%']

/-! ## `verify_documents` (`src/services/document_verifier.py`) -/

/-- One entry of the `educational_documents` argument of
`verify_documents`: the dict keys it reads, `none` for a missing key or
a `None` value. -/
structure EduDoc where
  id : Option Int
  qualification : Option String
  extracted_name : Option String
  extracted_dob : Option String
deriving DecidableEq

/-- One entry of the `comparisons` list of the verification result. -/
structure Comparison where
  document_id : Option Int
  qualification : String
  name_match : Bool
  name_similarity : ℚ
  dob_match : Bool
  overall_match : Bool
deriving DecidableEq

/-- One entry of the `mismatches` list of the verification result
(`similarity` is present only on name mismatches; the constant
`"match": False` field is omitted). -/
structure Mismatch where
  document_id : Option Int
  qualification : String
  field : String
  personal_value : String
  document_value : String
  similarity : Option ℚ
  reason : String
deriving DecidableEq

/-- The dict returned by `verify_documents` (the `error` key is present
only on the two `pending` paths). -/
structure VerificationResult where
  status : String
  verified_count : ℕ
  total_count : ℕ
  comparisons : List Comparison
  mismatches : List Mismatch
  error : Option String
deriving DecidableEq

/-- The loop body of `verify_documents` for the whole document list:
returns the comparisons, the mismatches and the verified count.
`none` propagates an uncaught `ValueError` from `exact_match_dob`. -/
def verifyLoop (personal_name personal_dob : String) :
    List EduDoc → Option (List Comparison × List Mismatch × ℕ)
  | [] => some ([], [], 0)
  | d :: ds => do
    let qualification := d.qualification.getD "Unknown"
    let edu_name := d.extracted_name.getD ""
    let edu_dob := d.extracted_dob.getD ""
    let nameRes := fuzzy_match_names personal_name edu_name defaultThreshold
    let dobRes ← exact_match_dob personal_dob edu_dob
    let overall := nameRes.1 && dobRes.1
    let comp : Comparison :=
      { document_id := d.id
        qualification := qualification
        name_match := nameRes.1
        name_similarity := pyRound3 nameRes.2
        dob_match := dobRes.1
        overall_match := overall }
    let nameMis : List Mismatch :=
      if nameRes.1 then []
      else [{ document_id := d.id
              qualification := qualification
              field := "name"
              personal_value := personal_name
              document_value := if edu_name = "" then "Not found" else edu_name
              similarity := some (pyRound3 nameRes.2)
              reason := "Name similarity " ++ String.mk (formatPercent2 nameRes.2)
                ++ " below threshold" }]
    let dobMis : List Mismatch :=
      if dobRes.1 then []
      else [{ document_id := d.id
              qualification := qualification
              field := "dob"
              personal_value := personal_dob
              document_value := if edu_dob = "" then "Not found" else edu_dob
              similarity := none
              reason := dobRes.2 }]
    let rest ← verifyLoop personal_name personal_dob ds
    some (comp :: rest.1, (nameMis ++ dobMis) ++ rest.2.1,
      (if overall then 1 else 0) + rest.2.2)

/-- `verify_documents` from `src/services/document_verifier.py`.
Missing personal name or DOB, or an empty document list, short-circuit to
a `pending` result; otherwise each document is compared and the status is
`verified` when the verified count equals the total count, `failed`
otherwise.  `none` models an uncaught exception. -/
def verify_documents (personal_name personal_dob : String)
    (educational_documents : List EduDoc) : Option VerificationResult :=
  if personal_name = "" || personal_dob = "" then
    some { status := "pending", verified_count := 0,
           total_count := educational_documents.length,
           comparisons := [], mismatches := [],
           error := some "Personal document data incomplete" }
  else if educational_documents = [] then
    some { status := "pending", verified_count := 0, total_count := 0,
           comparisons := [], mismatches := [],
           error := some "No educational documents found" }
  else do
    let res ← verifyLoop personal_name personal_dob educational_documents
    let total := educational_documents.length
    some { status := if res.2.2 = total then "verified" else "failed"
           verified_count := res.2.2
           total_count := total
           comparisons := res.1
           mismatches := res.2.1
           error := none }

/-! ## Verification persistence (`src/api/form.py`,
`process_ocr_llm_verification`, STEP 3) -/

/-- One call to `crud.update_educational_document_verification`:
document id, new status, and the optional `errors={"field", "reason"}`
payload passed on the failed path. -/
structure DocUpdate where
  document_id : Option Int
  status : String
  errorField : Option String
  errorReason : Option String
deriving DecidableEq

/-- The persistence step `form.py` runs on a verification result: the
worker status written by `crud.update_worker_verification`, and the
per-document update calls in order.  On the `verified` branch every
comparison with `overall_match` is marked `verified`; on the other branch
the worker is marked `failed` and each mismatch's document is marked
`failed` with the mismatch field and reason. -/
def persistVerification (r : VerificationResult) : String × List DocUpdate :=
  if r.status = "verified" then
    ("verified",
      (r.comparisons.filter (fun c => c.overall_match)).map fun c =>
        { document_id := c.document_id, status := "verified",
          errorField := none, errorReason := none })
  else
    ("failed",
      r.mismatches.map fun m =>
        { document_id := m.document_id, status := "failed",
          errorField := some m.field, errorReason := some m.reason })

/-! ## Experience consolidation
(`calculate_total_experience_duration`, `src/db/crud.py`) -/

/-- Python `str.lower` for the ASCII range. -/
def pyLower (c : Char) : Char := c.toLower

/-- The number-token candidates of the regex group `(\d+\.?\d*)` at the
head of `s`, in backtracking order (longest fractional part first, then
the dotless reading), paired with the unconsumed remainder.  Shorter
splits of the leading digit run consume the same characters as the
dotless reading and are therefore redundant. -/
def numCandidates (s : List Char) : List (List Char × List Char) :=
  let d1 := s.takeWhile Char.isDigit
  let r1 := s.dropWhile Char.isDigit
  if d1 = [] then []
  else
    match r1 with
    | c :: r2 =>
      if c = '.' then
        let d2 := r2.takeWhile Char.isDigit
        let r3 := r2.dropWhile Char.isDigit
        ((List.range (d2.length + 1)).reverse.map fun k =>
          (d1 ++ '.' :: d2.take k, d2.drop k ++ r3)) ++ [(d1, r1)]
      else [(d1, r1)]
    | [] => [(d1, r1)]

/-- `\s*(?:u₁|u₂|…)`: some amount of leading whitespace (at most the
maximal run, matched greedily with backtracking) followed by one of the
unit alternatives. -/
def matchUnitsAfter (units : List (List Char)) (rest : List Char) : Bool :=
  let ws := (rest.takeWhile pyIsSpace).length
  (List.range (ws + 1)).any fun k =>
    units.any fun u => u.isPrefixOf (rest.drop k)

/-- `re.search(r'(\d+\.?\d*)\s*(?:u₁|u₂|…)', s)`: scan start positions
left to right; at the first position where a number token is followed by
whitespace and a unit, return the captured number group. -/
def searchNumUnit (units : List (List Char)) : List Char → Option (List Char)
  | [] => none
  | c :: cs =>
    match (numCandidates (c :: cs)).findSome? (fun cand =>
        if matchUnitsAfter units cand.2 then some cand.1 else none) with
    | some g => some g
    | none => searchNumUnit units cs

/-- The year units of the regex `(?:year|yr|y)`, in alternation order. -/
def yearUnits : List (List Char) := [['y','e','a','r'], ['y','r'], ['y']]

/-- The month units of the regex `(?:month|mon|m)`. -/
def monthUnits : List (List Char) := [['m','o','n','t','h'], ['m','o','n'], ['m']]

/-- Python `float(g)` for a captured group `digits[.digits]`, as an exact
rational (`mkRat` keeps the kernel able to evaluate it). -/
def floatOfGroup (g : List Char) : ℚ :=
  let intPart := g.takeWhile Char.isDigit
  let fracPart := (g.dropWhile Char.isDigit).drop 1
  mkRat (natOfDigits intPart * 10 ^ fracPart.length + natOfDigits fracPart)
    (10 ^ fracPart.length)

/-- The `work_duration` parse of `calculate_total_experience_duration`:
lower-case and strip, search for a year figure and a month figure, and
accumulate `int(years * 12) + int(months)` (0 when nothing matched). -/
def parseWorkDuration (s : String) : Int :=
  let ds := stripList (s.toList.map pyLower)
  (match searchNumUnit yearUnits ds with
   | some g => pyIntTrunc (ratMulNat (floatOfGroup g) 12)
   | none => 0) +
  (match searchNumUnit monthUnits ds with
   | some g => pyIntTrunc (floatOfGroup g)
   | none => 0)

/-- Gregorian leap-year rule used by `datetime`. -/
def isLeap (y : ℕ) : Bool := y % 4 = 0 && (y % 100 ≠ 0 || y % 400 = 0)

/-- Days in a month, as validated by the `datetime` constructor. -/
def daysInMonth (y m : ℕ) : ℕ :=
  if m = 2 then (if isLeap y then 29 else 28)
  else if m = 4 || m = 6 || m = 9 || m = 11 then 30
  else 31

/-- The strptime `%m` directive: `1[0-2]|0[1-9]|[1-9]`, longest
alternative first; returns the month and the unconsumed remainder. -/
def parseMonthToken : List Char → Option (ℕ × List Char)
  | a :: b :: rest =>
    if a = '1' && (b = '0' || b = '1' || b = '2') then some (natOfDigits [a, b], rest)
    else if a = '0' && b.isDigit && b ≠ '0' then some (natOfDigits [a, b], rest)
    else if a.isDigit && a ≠ '0' then some (a.toNat - '0'.toNat, b :: rest)
    else none
  | [a] => if a.isDigit && a ≠ '0' then some (a.toNat - '0'.toNat, []) else none
  | [] => none

/-- The strptime `%d` directive: `3[01]|[12]\d|0[1-9]|[1-9]`. -/
def parseDayToken : List Char → Option (ℕ × List Char)
  | a :: b :: rest =>
    if a = '3' && (b = '0' || b = '1') then some (natOfDigits [a, b], rest)
    else if (a = '1' || a = '2') && b.isDigit then some (natOfDigits [a, b], rest)
    else if a = '0' && b.isDigit && b ≠ '0' then some (natOfDigits [a, b], rest)
    else if a.isDigit && a ≠ '0' then some (a.toNat - '0'.toNat, b :: rest)
    else none
  | [a] => if a.isDigit && a ≠ '0' then some (a.toNat - '0'.toNat, []) else none
  | [] => none

/-- `datetime.strptime(s, "%Y-%m")`: four year digits, a hyphen and a
month, consuming the whole string; year 0 is rejected by `datetime`.
Returns `(year, month)`. -/
def parseYM (l : List Char) : Option (ℕ × ℕ) :=
  match l with
  | y1 :: y2 :: y3 :: y4 :: '-' :: ms =>
    if [y1, y2, y3, y4].all Char.isDigit then
      match parseMonthToken ms with
      | some (m, []) =>
        let y := natOfDigits [y1, y2, y3, y4]
        if 1 ≤ y then some (y, m) else none
      | _ => none
    else none
  | _ => none

/-- `datetime.strptime(s, "%Y-%m-%d")` on the (already truncated)
string: year, month and day fully consuming the input, with the day
validated against the month length.  Returns `(year, month)`; the day
only matters for validity. -/
def parseYMD (l : List Char) : Option (ℕ × ℕ) :=
  match l with
  | y1 :: y2 :: y3 :: y4 :: '-' :: ms =>
    if [y1, y2, y3, y4].all Char.isDigit then
      match parseMonthToken ms with
      | some (m, '-' :: ds) =>
        match parseDayToken ds with
        | some (d, []) =>
          let y := natOfDigits [y1, y2, y3, y4]
          if 1 ≤ y && d ≤ daysInMonth y m then some (y, m) else none
        | _ => none
      | _ => none
    else none
  | _ => none

/-- The date parsing of PRIORITY 3 of
`calculate_total_experience_duration`: strip, then `%Y-%m` for
7-character strings, else `%Y-%m-%d` on the first 10 characters.
`none` models the caught `ValueError`. -/
def parseDateArg (s : String) : Option (ℕ × ℕ) :=
  let t := stripList s.toList
  if t.length = 7 then parseYM t else parseYMD (t.take 10)

/-- One workplace dict, restricted to the keys
`calculate_total_experience_duration` reads (`none` = key absent). -/
structure Workplace where
  work_duration : Option String
  duration_months : Option Int
  start_date : Option String
  end_date : Option String
deriving DecidableEq

/-- PRIORITY 3 of `calculate_total_experience_duration`: when both date
keys are present and parse, the calendar-month difference clamped below
at 0; a parse failure is caught and contributes 0. -/
def dateMonths (w : Workplace) : Int :=
  match w.start_date, w.end_date with
  | some s, some e =>
    match parseDateArg s, parseDateArg e with
    | some se, some ee =>
      max 0 (((ee.1 : Int) - se.1) * 12 + ((ee.2 : Int) - se.2))
    | _, _ => 0
  | _, _ => 0

/-- PRIORITY 2 then PRIORITY 3: a present and non-zero (truthy)
`duration_months` is used clamped below at 0, otherwise the dates rule
applies. -/
def fallbackMonths (w : Workplace) : Int :=
  match w.duration_months with
  | some d => if d ≠ 0 then max 0 d else dateMonths w
  | none => dateMonths w

/-- The loop body of `calculate_total_experience_duration` for one
workplace: a present, truthy `work_duration` that parses to a positive
month count wins; otherwise control falls through to `duration_months`
and the date range. -/
def entryMonths (w : Workplace) : Int :=
  match w.work_duration with
  | some s =>
    if s ≠ "" then
      let p := parseWorkDuration s
      if 0 < p then p else fallbackMonths w
    else fallbackMonths w
  | none => fallbackMonths w

/-- `calculate_total_experience_duration` from `src/db/crud.py`: the
accumulating loop over all workplaces (an empty list returns 0 through
the `not workplaces` guard, which coincides with the empty fold). -/
def calculate_total_experience_duration (workplaces : List Workplace) : Int :=
  workplaces.foldl (fun total w => total + entryMonths w) 0

/-! Claim C2 reads the spec's priority rules as a strict three-way
`if / else if / else if` on which keys are present.  The following
definitions follow the claim's words (not the source) so that the claim
can be compared with the code. -/

/-- The per-entry duration parse as claim C2 words it:
`int(years)*12 + int(months)` from the two unit regexes. -/
def specParseDuration (s : String) : Int :=
  let ds := stripList (s.toList.map pyLower)
  (match searchNumUnit yearUnits ds with
   | some g => pyIntTrunc (floatOfGroup g) * 12
   | none => 0) +
  (match searchNumUnit monthUnits ds with
   | some g => pyIntTrunc (floatOfGroup g)
   | none => 0)

/-- Per-entry months as claim C2 states the priority rules: a present
(non-empty) `work_duration` phrase decides the entry outright; else a
present `duration_months` is used clamped below at 0; else the date
rule applies. -/
def specPriorityMonths (w : Workplace) : Int :=
  match w.work_duration with
  | some s => if s ≠ "" then specParseDuration s else
      match w.duration_months with
      | some d => max 0 d
      | none => dateMonths w
  | none =>
      match w.duration_months with
      | some d => max 0 d
      | none => dateMonths w

/-- The total claim C2 asserts: the sum of the per-entry months under
the claim's priority rules. -/
def specTotalMonths (ws : List Workplace) : Int :=
  (ws.map specPriorityMonths).sum

/-- Per-entry months as the amended claim states them: a present
`work_duration` phrase that parses to a *positive* month count decides
the entry; otherwise (including when the phrase parses to 0) control
falls through to a present non-zero `duration_months` (clamped below at
0), and then to the date rule. -/
def amendedEntryMonths (w : Workplace) : Int :=
  let fallback :=
    match w.duration_months with
    | some d => if d = 0 then dateMonths w else max 0 d
    | none => dateMonths w
  match w.work_duration with
  | some s =>
    if s ≠ "" ∧ 0 < parseWorkDuration s then parseWorkDuration s else fallback
  | none => fallback

/-- `experience_years_float` as computed by `save_experience`
(`src/db/crud.py`): `round(total_duration_months / 12.0, 1)`. -/
def experience_years_float (total_months : Int) : ℚ :=
  pyRound1 (mkRat total_months 12)

/-- The integer years kept by `save_experience` for backward
compatibility: `int(total_duration_months / 12)`. -/
def experience_years_int (total_months : Int) : ℤ :=
  pyIntTrunc (mkRat total_months 12)

/-! ## Theorems -/

/-- C6: every call of `verify_documents` with an empty personal name, an
empty personal DOB, or an empty document list returns (rather than
raising) a result with status `"pending"`, no comparisons, a zero
verified count and a populated error field. -/
theorem verify_documents_pending_on_missing_input
    (pn pd : String) (docs : List EduDoc) (h : pn = "" ∨ pd = "" ∨ docs = []) :
    (verify_documents pn pd docs).map
      (fun r => (r.status, r.comparisons, r.verified_count, r.error.isSome)) =
      some ("pending", ([] : List Comparison), 0, true) := by
  unfold verify_documents
  rcases h with h | h | h
  · subst h; simp
  · subst h; simp
  · subst h
    by_cases h1 : pn = "" ∨ pd = ""
    · rcases h1 with h1 | h1 <;> subst h1 <;> simp
    · push_neg at h1
      simp [h1.1, h1.2]

/-- C6 witness: the empty-document-list case at concrete inputs. -/
theorem verify_documents_pending_on_missing_input_witness :
    (verify_documents "JOHN" "01-01-1990" ([] : List EduDoc)).map
      (fun r => (r.status, r.comparisons, r.verified_count, r.error.isSome)) =
      some ("pending", ([] : List Comparison), 0, true) :=
  verify_documents_pending_on_missing_input "JOHN" "01-01-1990" []
    (Or.inr (Or.inr rfl))

/-- C4: `exact_match_dob` returns a mismatch with the missing-data
message when either input is empty; otherwise (when `normalize_date`
returns on both sides) it matches exactly when the two normalized
strings are equal, with no tolerance; in particular
`("01-12-1987", "1-12-87")` matches because both normalize to
`"01-12-1987"`. -/
theorem exact_match_dob_exact_equality (d1 d2 : String) :
    ((d1 = "" ∨ d2 = "") →
      exact_match_dob d1 d2 = some (false, "One or both DOBs are missing")) ∧
    (∀ n1 n2, d1 ≠ "" → d2 ≠ "" → normalize_date d1 = some n1 →
      normalize_date d2 = some n2 →
      (exact_match_dob d1 d2).map Prod.fst = some (decide (n1 = n2))) ∧
    (exact_match_dob "01-12-1987" "1-12-87" = some (true, "DOBs match")) ∧
    (normalize_date "01-12-1987" = some "01-12-1987") ∧
    (normalize_date "1-12-87" = some "01-12-1987") := by
  refine ⟨fun h => ?_, fun n1 n2 h1 h2 hn1 hn2 => ?_, by decide, by decide, by decide⟩
  · unfold exact_match_dob
    rcases h with h | h <;> simp [h]
  · unfold exact_match_dob
    simp only [h1, h2, Bool.or_self, if_neg, hn1, hn2, Option.bind_eq_bind,
      Option.some_bind, decide_eq_true_eq]
    by_cases he : n1 = n2 <;> simp [he, h1, h2]

/-- C4 witness: the equality clause at the spec's concrete pair. -/
theorem exact_match_dob_exact_equality_witness :
    (exact_match_dob "01-12-1987" "1-12-87").map Prod.fst =
      some (decide (("01-12-1987" : String) = "01-12-1987")) :=
  (exact_match_dob_exact_equality "01-12-1987" "1-12-87").2.1
    "01-12-1987" "01-12-1987" (by decide) (by decide) (by decide) (by decide)

/-- C5 counterexample: a malformed input that does not split into three
parts is *not* returned unchanged — the separator replacement has
already happened, so `"1/2"` comes back as `"1-2"`. -/
theorem normalize_date_malformed_changed :
    normalize_date "1/2" = some "1-2" ∧ ("1-2" : String) ≠ "1/2" := by decide

/-- C5 (amended): `normalize_date` treats `/`, `.`, space and `-` as
separators; with exactly 3 parts and a 4-digit first part it reorders
`YYYY-MM-DD` to `DD-MM-YYYY`; otherwise it zero-pads day and month and
expands a 2-digit year to `19xx` when its value exceeds 50, else `20xx`
(a year part of any other length is kept as-is, with day and month still
zero-padded, e.g. `"1-2-1987" → "01-02-1987"`); an input that does not
split into exactly 3 parts is returned as the trimmed,
separator-replaced string (not the original input) rather than raising.
`normalize_date "1987-12-01" = "01-12-1987"` and
`normalize_date "1/2/87" = "01-02-1987"`. -/
theorem normalize_date_characterization (s : String) :
    ((splitHyphen (dateCanon s)).length ≠ 3 →
      normalize_date s = some (String.mk (dateCanon s))) ∧
    (∀ p0 p1 p2, splitHyphen (dateCanon s) = [p0, p1, p2] →
      (p0.length = 4 && p0.all Char.isDigit) = true →
      normalize_date s =
        some (String.mk (pyZfill2 p2 ++ '-' :: pyZfill2 p1 ++ '-' :: p0))) ∧
    (∀ p0 p1 p2 yi, splitHyphen (dateCanon s) = [p0, p1, p2] →
      (p0.length = 4 && p0.all Char.isDigit) = false →
      p2.length = 2 → pyIntOfString p2 = some yi →
      normalize_date s =
        some (String.mk (pyZfill2 p0 ++ '-' :: pyZfill2 p1 ++ '-' ::
          (if 50 < yi then '1' :: '9' :: p2 else '2' :: '0' :: p2)))) ∧
    (∀ p0 p1 p2, splitHyphen (dateCanon s) = [p0, p1, p2] →
      (p0.length = 4 && p0.all Char.isDigit) = false →
      p2.length ≠ 2 →
      normalize_date s =
        some (String.mk (pyZfill2 p0 ++ '-' :: pyZfill2 p1 ++ '-' :: p2))) ∧
    (normalize_date "1987-12-01" = some "01-12-1987") ∧
    (normalize_date "1/2/87" = some "01-02-1987") ∧
    (normalize_date "1-2-1987" = some "01-02-1987") := by
  have hempty : s = "" → splitHyphen (dateCanon s) = [[]] := by
    intro h; subst h; decide
  refine ⟨fun h3 => ?_, fun p0 p1 p2 hsplit hdig => ?_,
    fun p0 p1 p2 yi hsplit hdig hlen hint => ?_,
    fun p0 p1 p2 hsplit hdig hlen => ?_, by decide, by decide, by decide⟩
  · unfold normalize_date
    by_cases hs : s = ""
    · subst hs; decide
    · simp only [hs, if_false]
      rcases hp : splitHyphen (dateCanon s) with _ | ⟨a, _ | ⟨b, _ | ⟨c, _ | _⟩⟩⟩ <;>
        simp_all
  · unfold normalize_date
    by_cases hs : s = ""
    · rw [hempty hs] at hsplit; simp at hsplit
    · simp [hs, hsplit, hdig]
  · unfold normalize_date
    by_cases hs : s = ""
    · rw [hempty hs] at hsplit; simp at hsplit
    · simp [hs, hsplit, hdig, hlen, hint]
  · unfold normalize_date
    by_cases hs : s = ""
    · rw [hempty hs] at hsplit; simp at hsplit
    · simp [hs, hsplit, hdig, hlen]

/-- C5 witness: the reorder clause at `"1987-12-01"`. -/
theorem normalize_date_characterization_witness :
    normalize_date "1987-12-01" =
      some (String.mk (pyZfill2 ['0','1'] ++ '-' :: pyZfill2 ['1','2'] ++ '-' ::
        ['1','9','8','7'])) :=
  (normalize_date_characterization "1987-12-01").2.1
    ['1','9','8','7'] ['1','2'] ['0','1'] (by decide) (by decide)

/-! ### Experience consolidation (claims C2, C7) -/

lemma foldl_add_entryMonths (ws : List Workplace) (a : Int) :
    ws.foldl (fun total w => total + entryMonths w) a = a + (ws.map entryMonths).sum := by
  induction ws generalizing a with
  | nil => simp
  | cons w ws ih => simp [ih, List.sum_cons]; ring

lemma entryMonths_eq_amended (w : Workplace) :
    entryMonths w = amendedEntryMonths w := by
  have hfall :
      (match w.duration_months with
        | some d => if d = 0 then dateMonths w else max 0 d
        | none => dateMonths w) = fallbackMonths w := by
    unfold fallbackMonths
    cases w.duration_months with
    | none => rfl
    | some d => by_cases hd : d = 0 <;> simp [hd]
  unfold entryMonths amendedEntryMonths
  rw [hfall]
  cases w.work_duration with
  | none => rfl
  | some s =>
    by_cases hs : s = ""
    · simp [hs]
    · by_cases hp : 0 < parseWorkDuration s <;> simp [hs, hp]

/-- C2 counterexample: an entry whose `work_duration` is present but
unparseable does not stop at the first priority rule — the code falls
through to `duration_months`, while the claim's rules assign it 0. -/
theorem experience_priority_fallthrough_counterexample :
    calculate_total_experience_duration [⟨some "garbage", some 5, none, none⟩] = 5 ∧
    specTotalMonths [⟨some "garbage", some 5, none, none⟩] = 0 ∧
    calculate_total_experience_duration [⟨some "garbage", some 5, none, none⟩] ≠
      specTotalMonths [⟨some "garbage", some 5, none, none⟩] := by decide

/-- C2 (amended): `calculate_total_experience_duration` sums, over all
entries, the per-entry months given by: a present `work_duration` phrase
that parses to a positive month count; otherwise a present non-zero
`duration_months` clamped below at 0; otherwise the calendar-month
difference of the date range clamped below at 0.  The phrase
`[{"work_duration": "2 years"}, {"work_duration": "6 months"}]` totals
30 months and `[{"start_date": "2020-01", "end_date": "2021-07"}]`
totals 18 months. -/
theorem calculate_total_experience_duration_rules (ws : List Workplace) :
    calculate_total_experience_duration ws = (ws.map amendedEntryMonths).sum ∧
    calculate_total_experience_duration
      [⟨some "2 years", none, none, none⟩, ⟨some "6 months", none, none, none⟩] = 30 ∧
    calculate_total_experience_duration
      [⟨none, none, some "2020-01", some "2021-07"⟩] = 18 := by
  refine ⟨?_, by decide, by decide⟩
  unfold calculate_total_experience_duration
  rw [foldl_add_entryMonths, zero_add]
  congr 1
  exact List.map_congr_left fun w _ => entryMonths_eq_amended w

lemma numCandidates_rest_sublist (s : List Char) :
    ∀ cand ∈ numCandidates s, cand.2.Sublist s := by
  intro cand hc
  unfold numCandidates at hc
  by_cases hd : s.takeWhile Char.isDigit = []
  · simp [hd] at hc
  · simp only [hd, if_false] at hc
    have hdrop : (s.dropWhile Char.isDigit).Sublist s := List.dropWhile_sublist _
    rcases hr : s.dropWhile Char.isDigit with _ | ⟨c, r2⟩
    · rw [hr] at hc
      simp at hc
      subst hc
      exact List.nil_sublist s
    · rw [hr] at hc hdrop
      by_cases hdot : c = '.'
      · subst hdot
        simp only [if_pos rfl] at hc
        rcases List.mem_append.mp hc with hmem | hmem
        · obtain ⟨k, _, hcand⟩ := List.mem_map.mp hmem
          have h2 : ((r2.takeWhile Char.isDigit).drop k ++
              r2.dropWhile Char.isDigit).Sublist r2 := by
            have h3 := (List.drop_sublist k (r2.takeWhile Char.isDigit)).append_right
              (r2.dropWhile Char.isDigit)
            rwa [List.takeWhile_append_dropWhile] at h3
          have hrw : cand.2 =
              (r2.takeWhile Char.isDigit).drop k ++ r2.dropWhile Char.isDigit := by
            rw [← hcand]
          rw [hrw]
          exact h2.trans ((List.sublist_cons_self '.' r2).trans hdrop)
        · simp at hmem
          subst hmem
          exact hdrop
      · simp only [hdot, if_false] at hc
        simp at hc
        subst hc
        exact hdrop

lemma matchUnitsAfter_false_of_no_unit_chars (units : List (List Char))
    (rest l : List Char)
    (hu : ∀ u ∈ units, ∃ c cs, u = c :: cs ∧ (c = 'y' ∨ c = 'm'))
    (hsub : rest.Sublist l) (hl : ∀ c ∈ l, c ≠ 'y' ∧ c ≠ 'm') :
    matchUnitsAfter units rest = false := by
  simp only [matchUnitsAfter, List.any_eq_false]
  intro k _ hany
  obtain ⟨u, hu', hpre⟩ := List.any_eq_true.mp hany
  obtain ⟨c, cs, rfl, hc⟩ := hu u hu'
  have hmem : c ∈ rest.drop k :=
    (List.isPrefixOf_iff_prefix.mp hpre).subset (List.mem_cons_self c cs)
  have hmem2 : c ∈ l := hsub.subset ((List.drop_sublist k rest).subset hmem)
  rcases hc with rfl | rfl
  · exact (hl _ hmem2).1 rfl
  · exact (hl _ hmem2).2 rfl

lemma searchNumUnit_none_of_no_unit_chars (units : List (List Char))
    (hu : ∀ u ∈ units, ∃ c cs, u = c :: cs ∧ (c = 'y' ∨ c = 'm')) :
    ∀ l, (∀ c ∈ l, c ≠ 'y' ∧ c ≠ 'm') → searchNumUnit units l = none := by
  intro l
  induction l with
  | nil => intro _; rfl
  | cons c cs ih =>
    intro hl
    unfold searchNumUnit
    have hfind : (numCandidates (c :: cs)).findSome? (fun cand =>
        if matchUnitsAfter units cand.2 then some cand.1 else none) = none := by
      rw [List.findSome?_eq_none_iff]
      intro cand hcand
      rw [matchUnitsAfter_false_of_no_unit_chars units cand.2 (c :: cs) hu
        (numCandidates_rest_sublist _ cand hcand) hl]
      rfl
    rw [hfind]
    exact ih fun x hx => hl x (List.mem_cons_of_mem c hx)

/-- C7 counterexample: an entry whose `work_duration` contains a number
but no recognized year/month unit can still contribute months — the
code falls through to `duration_months`, so `{"work_duration": "5 k",
"duration_months": 7}` contributes 7, not 0. -/
theorem no_unit_entry_still_contributes_counterexample :
    calculate_total_experience_duration [⟨some "5 k", some 7, none, none⟩] = 7 ∧
    calculate_total_experience_duration [⟨some "5 k", some 7, none, none⟩] ≠ 0 := by
  decide

/-- C7 (amended): `calculate_total_experience_duration` is a total
function (every exception path of the source is caught and contributes
0), and a `work_duration` whose lower-cased, stripped text matches
neither the year regex nor the month regex — i.e. contains no
recognizable year/month unit — parses to zero months; such an entry
falls through to the `duration_months` and date rules rather than
aborting the computation.  In particular a text with no `y` and no `m`
character matches neither regex, and a lone
`{"work_duration": "garbage"}` entry yields a total of 0. -/
theorem workduration_without_units_contributes_zero :
    (∀ s : String,
      searchNumUnit yearUnits (stripList (s.toList.map pyLower)) = none →
      searchNumUnit monthUnits (stripList (s.toList.map pyLower)) = none →
      parseWorkDuration s = 0) ∧
    (∀ (w : Workplace) (s : String), w.work_duration = some s →
      searchNumUnit yearUnits (stripList (s.toList.map pyLower)) = none →
      searchNumUnit monthUnits (stripList (s.toList.map pyLower)) = none →
      entryMonths w = fallbackMonths w) ∧
    (∀ s : String, (∀ c ∈ stripList (s.toList.map pyLower), c ≠ 'y' ∧ c ≠ 'm') →
      searchNumUnit yearUnits (stripList (s.toList.map pyLower)) = none ∧
      searchNumUnit monthUnits (stripList (s.toList.map pyLower)) = none) ∧
    calculate_total_experience_duration [⟨some "garbage", none, none, none⟩] = 0 := by
  have hyear : ∀ u ∈ yearUnits, ∃ c cs, u = c :: cs ∧ (c = 'y' ∨ c = 'm') := by
    intro u hu
    unfold yearUnits at hu
    simp only [List.mem_cons, List.not_mem_nil, or_false] at hu
    rcases hu with rfl | rfl | rfl
    · exact ⟨'y', _, rfl, Or.inl rfl⟩
    · exact ⟨'y', _, rfl, Or.inl rfl⟩
    · exact ⟨'y', _, rfl, Or.inl rfl⟩
  have hmonth : ∀ u ∈ monthUnits, ∃ c cs, u = c :: cs ∧ (c = 'y' ∨ c = 'm') := by
    intro u hu
    unfold monthUnits at hu
    simp only [List.mem_cons, List.not_mem_nil, or_false] at hu
    rcases hu with rfl | rfl | rfl
    · exact ⟨'m', _, rfl, Or.inr rfl⟩
    · exact ⟨'m', _, rfl, Or.inr rfl⟩
    · exact ⟨'m', _, rfl, Or.inr rfl⟩
  have hparse : ∀ s : String,
      searchNumUnit yearUnits (stripList (s.toList.map pyLower)) = none →
      searchNumUnit monthUnits (stripList (s.toList.map pyLower)) = none →
      parseWorkDuration s = 0 := by
    intro s hy hm
    unfold parseWorkDuration
    simp only [hy, hm]
    norm_num
  refine ⟨hparse, fun w s hw hy hm => ?_, fun s hs => ?_, by decide⟩
  · unfold entryMonths
    rw [hw]
    by_cases hempty : s = ""
    · simp [hempty]
    · simp only [hempty, ne_eq, not_false_eq_true, if_true, hparse s hy hm]
      norm_num
  · exact ⟨searchNumUnit_none_of_no_unit_chars yearUnits hyear _ hs,
      searchNumUnit_none_of_no_unit_chars monthUnits hmonth _ hs⟩

/-- C7 witness: the parse-to-zero and fall-through clauses at the
concrete entry `{"work_duration": "10 days", "duration_months": 7}`,
whose text contains a `y` yet matches neither unit regex. -/
theorem workduration_without_units_contributes_zero_witness :
    parseWorkDuration "10 days" = 0 ∧
    entryMonths ⟨some "10 days", some 7, none, none⟩ =
      fallbackMonths ⟨some "10 days", some 7, none, none⟩ :=
  ⟨workduration_without_units_contributes_zero.1 "10 days" (by decide) (by decide),
   workduration_without_units_contributes_zero.2.1
     ⟨some "10 days", some 7, none, none⟩ "10 days" rfl (by decide) (by decide)⟩

/-! ### Verification aggregation (claim C1) -/

lemma verifyLoop_spec (pn pd : String) :
    ∀ (ds : List EduDoc) (cs : List Comparison) (ms : List Mismatch) (vc : ℕ),
      verifyLoop pn pd ds = some (cs, ms, vc) →
      cs.length = ds.length ∧ vc = cs.countP (fun c => c.overall_match) ∧
      ∀ c ∈ cs, c.overall_match = (c.name_match && c.dob_match) := by
  intro ds
  induction ds with
  | nil =>
    intro cs ms vc h
    simp only [verifyLoop, Option.some.injEq, Prod.mk.injEq] at h
    obtain ⟨rfl, rfl, rfl⟩ := h
    simp
  | cons d ds ih =>
    intro cs ms vc h
    simp only [verifyLoop, Option.bind_eq_bind, Option.bind_eq_some] at h
    obtain ⟨dm, hdm, ⟨cs', ms', vc'⟩, hrest, heq⟩ := h
    simp only [Option.some.injEq, Prod.mk.injEq] at heq
    obtain ⟨hcs, _, hvc⟩ := heq
    obtain ⟨hlen, hcount, hover⟩ := ih cs' ms' vc' hrest
    subst hcs hvc
    refine ⟨by simp [hlen], ?_, ?_⟩
    · simp only [List.countP_cons]
      by_cases hov : (fuzzy_match_names pn (d.extracted_name.getD "")
          defaultThreshold).1 && dm.1 <;> (simp [hov, hcount]; try omega)
    · intro c hc
      rcases List.mem_cons.mp hc with rfl | hc'
      · simp
      · exact hover c hc'

/-- C1: with a non-empty personal name, a non-empty personal DOB and a
non-empty document list, a returned `verify_documents` result has status
`"verified"` exactly when every comparison's `overall_match`
(`name_match AND dob_match`) is true, and status `"failed"` in every
other case — no third status exists once at least one document exists,
so one mismatched document fails the whole verification. -/
theorem verify_documents_all_or_nothing
    (pn pd : String) (docs : List EduDoc) (r : VerificationResult)
    (hn : pn ≠ "") (hd : pd ≠ "") (hdocs : docs ≠ [])
    (hr : verify_documents pn pd docs = some r) :
    (r.status = "verified" ↔ ∀ c ∈ r.comparisons, c.overall_match = true) ∧
    (r.status = "verified" ∨ r.status = "failed") ∧
    (∀ c ∈ r.comparisons, c.overall_match = (c.name_match && c.dob_match)) := by
  unfold verify_documents at hr
  have hguard : (pn = "" || pd = "") = false := by simp [hn, hd]
  rw [hguard] at hr
  simp only [Bool.false_eq_true, if_false, if_neg hdocs, Option.bind_eq_bind,
    Option.bind_eq_some] at hr
  obtain ⟨⟨cs, ms, vc⟩, hloop, heq⟩ := hr
  simp only [Option.some.injEq] at heq
  subst heq
  obtain ⟨hlen, hcount, hover⟩ := verifyLoop_spec pn pd docs cs ms vc hloop
  refine ⟨?_, ?_, hover⟩
  · by_cases hv : vc = docs.length
    · simp only [hv, if_pos rfl]
      refine iff_of_true rfl ?_
      have : cs.countP (fun c => c.overall_match) = cs.length := by omega
      intro c hc
      exact List.countP_eq_length.mp this c hc
    · simp only [if_neg hv]
      refine iff_of_false (by decide) fun hall => hv ?_
      have : cs.countP (fun c => c.overall_match) = cs.length :=
        List.countP_eq_length.mpr hall
      omega
  · by_cases hv : vc = docs.length <;> simp [hv]

/-- C1 witness: a single matching document yields status `verified`. -/
theorem verify_documents_all_or_nothing_witness :
    (verify_documents "JOHN" "01-01-1990"
      [⟨some 1, some "Class 10", some "JOHN", some "01-01-1990"⟩]).map
      (fun r => r.status) = some "verified" := by
  have hver : verify_documents "JOHN" "01-01-1990"
      [⟨some 1, some "Class 10", some "JOHN", some "01-01-1990"⟩] =
      some ⟨"verified", 1, 1, [⟨some 1, "Class 10", true, 1, true, true⟩],
        [], none⟩ := by decide
  have h := verify_documents_all_or_nothing "JOHN" "01-01-1990"
    [⟨some 1, some "Class 10", some "JOHN", some "01-01-1990"⟩] _
    (by decide) (by decide) (by decide) hver
  have hs : (⟨"verified", 1, 1, [⟨some 1, "Class 10", true, 1, true, true⟩],
      [], none⟩ : VerificationResult).status = "verified" := h.1.mpr (by decide)
  rw [hver, Option.map_some', hs]

/-! ### Fuzzy name matching (claim C3) -/

lemma fuzzy_match_names_cases (n1 n2 : String) (t : ℚ) :
    (fuzzy_match_names n1 n2 t).2 = 0 ∧ (fuzzy_match_names n1 n2 t).1 = false ∨
    (fuzzy_match_names n1 n2 t).2 = 1 ∧ (fuzzy_match_names n1 n2 t).1 = true ∨
    (fuzzy_match_names n1 n2 t).1 = decide (t ≤ (fuzzy_match_names n1 n2 t).2) := by
  unfold fuzzy_match_names
  by_cases e1 : n1 = "" <;> by_cases e2 : n2 = "" <;>
    by_cases e3 : normalize_name n1 = normalize_name n2 <;> simp [e1, e2, e3]

/-- C3: `fuzzy_match_names` returns `(false, 0)` when either input is
empty; `(true, 1)` when both are non-empty with equal normalized forms;
otherwise the verdict is exactly `similarity ≥ threshold`.  The default
threshold is `0.85 = 17/20`, so any pair whose ratio is `0.84` fails and
any pair whose ratio is `0.86` passes. -/
theorem fuzzy_match_names_threshold_semantics (n1 n2 : String) (t : ℚ) :
    ((n1 = "" ∨ n2 = "") → fuzzy_match_names n1 n2 t = (false, 0)) ∧
    (n1 ≠ "" → n2 ≠ "" → normalize_name n1 = normalize_name n2 →
      fuzzy_match_names n1 n2 t = (true, 1)) ∧
    (n1 ≠ "" → n2 ≠ "" → normalize_name n1 ≠ normalize_name n2 →
      ((fuzzy_match_names n1 n2 t).1 = true ↔ t ≤ (fuzzy_match_names n1 n2 t).2)) ∧
    defaultThreshold = 17 / 20 ∧
    ((fuzzy_match_names n1 n2 defaultThreshold).2 = 21 / 25 →
      (fuzzy_match_names n1 n2 defaultThreshold).1 = false) ∧
    ((fuzzy_match_names n1 n2 defaultThreshold).2 = 43 / 50 →
      (fuzzy_match_names n1 n2 defaultThreshold).1 = true) := by
  have hdt : defaultThreshold = 17 / 20 := by
    unfold defaultThreshold; rw [Rat.mkRat_eq_div]; norm_num
  refine ⟨fun h => ?_, fun h1 h2 h3 => ?_, fun h1 h2 h3 => ?_, hdt,
    fun hs => ?_, fun hs => ?_⟩
  · unfold fuzzy_match_names
    rcases h with h | h <;> simp [h]
  · unfold fuzzy_match_names
    simp [h1, h2, h3]
  · unfold fuzzy_match_names
    simp [h1, h2, h3]
  · rcases fuzzy_match_names_cases n1 n2 defaultThreshold with ⟨h0, _⟩ | ⟨h1, _⟩ | hdec
    · rw [h0] at hs; norm_num at hs
    · rw [h1] at hs; norm_num at hs
    · rw [hdec, hs, hdt]
      norm_num
  · rcases fuzzy_match_names_cases n1 n2 defaultThreshold with ⟨h0, _⟩ | ⟨h1, hm⟩ | hdec
    · rw [h0] at hs; norm_num at hs
    · exact hm
    · rw [hdec, hs, hdt]
      norm_num

/-- C3 witness: the threshold clause at a concrete unequal pair (ratio
`1/4 < 17/20`, so the match verdict is `false`). -/
theorem fuzzy_match_names_threshold_semantics_witness :
    (fuzzy_match_names "xxayybzz" "yyczzdxx" defaultThreshold).1 = false := by
  have h := (fuzzy_match_names_threshold_semantics "xxayybzz" "yyczzdxx"
    defaultThreshold).2.2.1 (by decide) (by decide) (by decide)
  cases hb : (fuzzy_match_names "xxayybzz" "yyczzdxx" defaultThreshold).1
  · rfl
  · exfalso
    have hle := h.mp hb
    revert hle
    decide

/-! ### Similarity score range and symmetry (claim C8) -/

lemma commonPrefixLen_le_left : ∀ a b : List Char, commonPrefixLen a b ≤ a.length := by
  intro a
  induction a with
  | nil => intro b; cases b <;> simp [commonPrefixLen]
  | cons x xs ih =>
    intro b
    cases b with
    | nil => simp [commonPrefixLen]
    | cons y ys =>
      unfold commonPrefixLen
      by_cases h : x = y <;> simp [h]
      exact ih ys

lemma commonSuffixLen_le_left (a b : List Char) :
    commonSuffixLen a b ≤ a.length := by
  unfold commonSuffixLen
  simpa using commonPrefixLen_le_left a.reverse b.reverse

lemma slice_length_le (l : List Char) (lo hi : ℕ) :
    (slice l lo hi).length ≤ hi - lo := by
  unfold slice
  rw [List.length_take]
  exact min_le_left _ _

lemma commonPrefixLen_le_right : ∀ a b : List Char, commonPrefixLen a b ≤ b.length := by
  intro a
  induction a with
  | nil => intro b; cases b <;> simp [commonPrefixLen]
  | cons x xs ih =>
    intro b
    cases b with
    | nil => simp [commonPrefixLen]
    | cons y ys =>
      unfold commonPrefixLen
      by_cases h : x = y <;> simp [h]
      exact ih ys

lemma commonSuffixLen_le_right (a b : List Char) :
    commonSuffixLen a b ≤ b.length := by
  unfold commonSuffixLen
  simpa using commonPrefixLen_le_right a.reverse b.reverse

lemma foldl_preserve {α β : Type} (P : β → Prop) (f : β → α → β) :
    ∀ (l : List α) (init : β), P init →
      (∀ acc x, x ∈ l → P acc → P (f acc x)) → P (l.foldl f init) := by
  intro l
  induction l with
  | nil => intro init h _; exact h
  | cons x xs ih =>
    intro init h hstep
    exact ih (f init x) (hstep init x (List.mem_cons_self x xs) h)
      (fun acc y hy hacc => hstep acc y (List.mem_cons_of_mem x hy) hacc)

lemma findLongestMatch_bounds (a b : List Char) (alo ahi blo bhi : ℕ)
    (ha : alo ≤ ahi) (hb : blo ≤ bhi) :
    alo ≤ (findLongestMatch a b alo ahi blo bhi).1 ∧
    (findLongestMatch a b alo ahi blo bhi).1 +
      (findLongestMatch a b alo ahi blo bhi).2.2 ≤ ahi ∧
    blo ≤ (findLongestMatch a b alo ahi blo bhi).2.1 ∧
    (findLongestMatch a b alo ahi blo bhi).2.1 +
      (findLongestMatch a b alo ahi blo bhi).2.2 ≤ bhi := by
  unfold findLongestMatch
  refine foldl_preserve
    (fun best : ℕ × ℕ × ℕ => alo ≤ best.1 ∧ best.1 + best.2.2 ≤ ahi ∧
      blo ≤ best.2.1 ∧ best.2.1 + best.2.2 ≤ bhi)
    _ _ _ ⟨le_refl alo, by simpa using ha, le_refl blo, by simpa using hb⟩ ?_
  intro best i hi hbest
  refine foldl_preserve
    (fun best : ℕ × ℕ × ℕ => alo ≤ best.1 ∧ best.1 + best.2.2 ≤ ahi ∧
      blo ≤ best.2.1 ∧ best.2.1 + best.2.2 ≤ bhi)
    _ _ _ hbest ?_
  intro best' j hj hbest'
  obtain ⟨ii, hii, hieq⟩ := List.mem_range'.mp hi
  obtain ⟨jj, hjj, hjeq⟩ := List.mem_range'.mp hj
  have hi2 : i < ahi := by omega
  have hj2 : j < bhi := by omega
  have hk1 : commonSuffixLen (slice a alo (i + 1)) (slice b blo (j + 1)) ≤
      i + 1 - alo :=
    le_trans (commonSuffixLen_le_left _ _) (slice_length_le _ _ _)
  have hk2 : commonSuffixLen (slice a alo (i + 1)) (slice b blo (j + 1)) ≤
      j + 1 - blo :=
    le_trans (commonSuffixLen_le_right _ _) (slice_length_le _ _ _)
  by_cases hlt : best'.2.2 < commonSuffixLen (slice a alo (i + 1)) (slice b blo (j + 1))
  · simp only [hlt, if_true, if_pos hlt]
    refine ⟨by omega, by omega, by omega, by omega⟩
  · simpa only [hlt, if_neg hlt] using hbest'

lemma matchingTotal_le (fuel : ℕ) :
    ∀ a b alo ahi blo bhi, alo ≤ ahi → blo ≤ bhi →
      matchingTotal fuel a b alo ahi blo bhi ≤ ahi - alo ∧
      matchingTotal fuel a b alo ahi blo bhi ≤ bhi - blo := by
  induction fuel with
  | zero =>
    intro a b alo ahi blo bhi ha hb
    simp [matchingTotal]
  | succ fuel ih =>
    intro a b alo ahi blo bhi ha hb
    obtain ⟨h1, h2, h3, h4⟩ := findLongestMatch_bounds a b alo ahi blo bhi ha hb
    unfold matchingTotal
    by_cases hk : (findLongestMatch a b alo ahi blo bhi).2.2 = 0
    · simp [hk]
    · simp only [hk, if_false]
      obtain ⟨hL1, hL2⟩ := ih a b alo (findLongestMatch a b alo ahi blo bhi).1 blo
        (findLongestMatch a b alo ahi blo bhi).2.1 (by omega) (by omega)
      obtain ⟨hR1, hR2⟩ := ih a b
        ((findLongestMatch a b alo ahi blo bhi).1 + (findLongestMatch a b alo ahi blo bhi).2.2)
        ahi
        ((findLongestMatch a b alo ahi blo bhi).2.1 + (findLongestMatch a b alo ahi blo bhi).2.2)
        bhi (by omega) (by omega)
      omega

lemma smRatio_bounds (a b : List Char) : 0 ≤ smRatio a b ∧ smRatio a b ≤ 1 := by
  unfold smRatio
  by_cases ht : a.length + b.length = 0
  · simp [ht]
  · simp only [ht, if_false]
    obtain ⟨hM1, hM2⟩ := matchingTotal_le (a.length + b.length) a b 0 a.length 0 b.length
      (Nat.zero_le _) (Nat.zero_le _)
    rw [Rat.mkRat_eq_div]
    have htpos : (0 : ℚ) < ((a.length + b.length : ℕ) : ℚ) := by
      exact_mod_cast Nat.pos_of_ne_zero ht
    constructor
    · apply div_nonneg _ (le_of_lt htpos)
      positivity
    · rw [div_le_one htpos]
      have hsum : 2 * matchingTotal (a.length + b.length) a b 0 a.length 0 b.length ≤
          a.length + b.length := by omega
      exact_mod_cast hsum

/-- C8 counterexample: the similarity score is *not* symmetric.  The
difflib matcher's greedy block selection depends on the argument order:
`fuzzy_match_names "xxayybzz" "yyczzdxx"` scores `1/4` while the swapped
call scores `1/2`, although both inputs are non-empty and their
normalized forms differ. -/
theorem fuzzy_similarity_not_symmetric_counterexample :
    (fuzzy_match_names "xxayybzz" "yyczzdxx" defaultThreshold).2 ≠
      (fuzzy_match_names "yyczzdxx" "xxayybzz" defaultThreshold).2 ∧
    (fuzzy_match_names "xxayybzz" "yyczzdxx" defaultThreshold).2 = mkRat 1 4 ∧
    (fuzzy_match_names "yyczzdxx" "xxayybzz" defaultThreshold).2 = mkRat 1 2 ∧
    normalize_name "xxayybzz" ≠ normalize_name "yyczzdxx" ∧
    ("xxayybzz" : String) ≠ "" ∧ ("yyczzdxx" : String) ≠ "" := by decide

/-- C8 (amended): for non-empty names with differing normalized forms
the similarity score lies in `[0, 1]`; symmetry, however, does not hold
in general (see the counterexample), because difflib's greedy matching
depends on the argument order. -/
theorem fuzzy_similarity_in_unit_interval (n1 n2 : String) (t : ℚ)
    (h1 : n1 ≠ "") (h2 : n2 ≠ "") (h3 : normalize_name n1 ≠ normalize_name n2) :
    0 ≤ (fuzzy_match_names n1 n2 t).2 ∧ (fuzzy_match_names n1 n2 t).2 ≤ 1 := by
  unfold fuzzy_match_names
  simp [h1, h2, h3]
  exact smRatio_bounds _ _

/-- C8 witness: the range statement at the concrete asymmetric pair. -/
theorem fuzzy_similarity_in_unit_interval_witness :
    0 ≤ (fuzzy_match_names "xxayybzz" "yyczzdxx" defaultThreshold).2 ∧
    (fuzzy_match_names "xxayybzz" "yyczzdxx" defaultThreshold).2 ≤ 1 :=
  fuzzy_similarity_in_unit_interval "xxayybzz" "yyczzdxx" defaultThreshold
    (by decide) (by decide) (by decide)

/-! ### Years rounding (claim C9) -/

lemma rat_mul_den (x : ℚ) : x * (x.den : ℚ) = (x.num : ℚ) := by
  have h := Rat.num_div_den x
  rw [div_eq_iff (by exact_mod_cast x.den_pos.ne' : ((x.den : ℚ) ≠ 0))] at h
  exact h.symm

lemma fract_eq_r_div_den (x : ℚ) :
    Int.fract x = ((x.num - ⌊x⌋ * (x.den : ℤ) : ℤ) : ℚ) / (x.den : ℚ) := by
  have hden : (0 : ℚ) < (x.den : ℚ) := by exact_mod_cast x.den_pos
  rw [Int.fract, eq_div_iff (ne_of_gt hden), sub_mul]
  push_cast
  rw [rat_mul_den]

lemma roundHalfEven_fract_lt (x : ℚ) :
    2 * (x.num - ⌊x⌋ * (x.den : ℤ)) < (x.den : ℤ) ↔ Int.fract x < 1 / 2 := by
  have hden : (0 : ℚ) < (x.den : ℚ) := by exact_mod_cast x.den_pos
  have hfr := fract_eq_r_div_den x
  constructor
  · intro h
    rw [hfr, div_lt_iff₀ hden]
    have hq : ((2 * (x.num - ⌊x⌋ * (x.den : ℤ)) : ℤ) : ℚ) < ((x.den : ℤ) : ℚ) := by
      exact_mod_cast h
    push_cast at hq ⊢
    linarith
  · intro h
    rw [hfr, div_lt_iff₀ hden] at h
    have hq : ((2 * (x.num - ⌊x⌋ * (x.den : ℤ)) : ℤ) : ℚ) < ((x.den : ℤ) : ℚ) := by
      push_cast at h ⊢
      linarith
    exact_mod_cast hq

lemma roundHalfEven_fract_gt (x : ℚ) :
    (x.den : ℤ) < 2 * (x.num - ⌊x⌋ * (x.den : ℤ)) ↔ 1 / 2 < Int.fract x := by
  have hden : (0 : ℚ) < (x.den : ℚ) := by exact_mod_cast x.den_pos
  have hfr := fract_eq_r_div_den x
  constructor
  · intro h
    rw [hfr, lt_div_iff₀ hden]
    have hq : ((x.den : ℤ) : ℚ) < ((2 * (x.num - ⌊x⌋ * (x.den : ℤ)) : ℤ) : ℚ) := by
      exact_mod_cast h
    push_cast at hq ⊢
    linarith
  · intro h
    rw [hfr, lt_div_iff₀ hden] at h
    have hq : ((x.den : ℤ) : ℚ) < ((2 * (x.num - ⌊x⌋ * (x.den : ℤ)) : ℤ) : ℚ) := by
      push_cast at h ⊢
      linarith
    exact_mod_cast hq

lemma roundHalfEven_eq (x : ℚ) :
    roundHalfEven x =
      if Int.fract x < 1 / 2 then ⌊x⌋
      else if 1 / 2 < Int.fract x then ⌊x⌋ + 1
      else if Even ⌊x⌋ then ⌊x⌋ else ⌊x⌋ + 1 := by
  have h1 := roundHalfEven_fract_lt x
  have h2 := roundHalfEven_fract_gt x
  have h3 : Even ⌊x⌋ ↔ ⌊x⌋ % 2 = 0 := Int.even_iff
  simp only [roundHalfEven]
  split_ifs <;> simp_all <;> first
    | omega
    | linarith

lemma roundHalfEven_even_int_add (k : ℤ) (hk : Even k) (x : ℚ) :
    roundHalfEven ((k : ℚ) + x) = k + roundHalfEven x := by
  rw [roundHalfEven_eq, roundHalfEven_eq x, Int.fract_int_add, Int.floor_int_add]
  have hpar : Even (k + ⌊x⌋) ↔ Even ⌊x⌋ := by
    rw [Int.even_add]
    exact ⟨fun h => h.mp hk, fun h => ⟨fun _ => h, fun _ => hk⟩⟩
  split_ifs with hf1 hf2 hf3 <;> simp_all <;> ring

lemma ratMulNat_val (x : ℚ) (n : ℕ) : ratMulNat x n = x * (n : ℚ) := by
  unfold ratMulNat
  rw [Rat.mkRat_eq_div]
  push_cast
  rw [div_eq_iff (by exact_mod_cast x.den_pos.ne' : ((x.den : ℚ) ≠ 0)), mul_right_comm,
    rat_mul_den]

lemma pyIntTrunc_eq_floor (x : ℚ) (hx : 0 ≤ x) : pyIntTrunc x = ⌊x⌋ := by
  unfold pyIntTrunc
  rw [Int.tdiv_eq_ediv (Rat.num_nonneg.mpr hx) (by positivity)]
  exact Rat.floor_def.symm

/-- Shared fact behind claim C9: for every non-negative integer month
count the stored integer years equal the floor of the stored one-decimal
float years — the rounding cannot cross an integer boundary, because the
fractional part of `m/12` is at most `11/12 < 0.95`. -/
lemma years_int_eq_floor_float_aux (m : ℤ) (hm : 0 ≤ m) :
    experience_years_int m = ⌊experience_years_float m⌋ := by
  obtain ⟨q, r, hr0, hr12, hmqr⟩ : ∃ q r : ℤ, 0 ≤ r ∧ r < 12 ∧ m = 12 * q + r :=
    ⟨m / 12, m % 12, Int.emod_nonneg m (by norm_num),
      Int.emod_lt_of_pos m (by norm_num), by
        have := Int.ediv_add_emod m 12
        omega⟩
  subst hmqr
  have hmq : (0 : ℚ) ≤ mkRat (12 * q + r) 12 := by
    rw [Rat.mkRat_eq_div]
    apply div_nonneg _ (by norm_num)
    exact_mod_cast hm
  have hLHS : experience_years_int (12 * q + r) = q := by
    unfold experience_years_int
    rw [pyIntTrunc_eq_floor _ hmq, Rat.mkRat_eq_div, Rat.floor_intCast_div_natCast]
    omega
  have h10 : ratMulNat (mkRat (12 * q + r) 12) 10 =
      ((10 * q : ℤ) : ℚ) + mkRat (5 * r) 6 := by
    rw [ratMulNat_val, Rat.mkRat_eq_div, Rat.mkRat_eq_div]
    push_cast
    ring
  have hRHS : ⌊experience_years_float (12 * q + r)⌋ = q := by
    unfold experience_years_float pyRound1
    rw [h10, roundHalfEven_even_int_add (10 * q) ⟨5 * q, by ring⟩,
      Rat.mkRat_eq_div, Rat.floor_intCast_div_natCast]
    have hc : 0 ≤ roundHalfEven (mkRat (5 * r) 6) ∧
        roundHalfEven (mkRat (5 * r) 6) ≤ 9 := by
      interval_cases r <;> exact ⟨by decide, by decide⟩
    omega
  rw [hLHS, hRHS]

/-- C9 counterexample: the claimed divergence does not exist — for every
non-negative integer month count, `int(total_months/12)` equals
`floor(round(total_months/12, 1))`. -/
theorem years_rounding_divergence_counterexample :
    ¬ ∃ m : ℤ, 0 ≤ m ∧ experience_years_int m ≠ ⌊experience_years_float m⌋ := by
  rintro ⟨m, hm, hne⟩
  exact hne (years_int_eq_floor_float_aux m hm)

/-- C9 (amended): for every non-negative integer total month count the
integer-years field equals the floor of the one-decimal float-years
field; the spec's 11.95-years example is unreachable because the
fractional part of `months/12` is at most `11/12 ≈ 0.917 < 0.95`, so
one-decimal rounding never crosses an integer boundary. -/
theorem years_int_eq_floor_years_float (m : ℤ) (hm : 0 ≤ m) :
    experience_years_int m = ⌊experience_years_float m⌋ :=
  years_int_eq_floor_float_aux m hm

/-- C9 witness: the amended claim at `total_months = 143`
(`143/12 = 11.9166…`, float years `11.9`, integer years `11`). -/
theorem years_int_eq_floor_years_float_witness :
    (0 : ℤ) ≤ 143 ∧ experience_years_int 143 = ⌊experience_years_float 143⌋ :=
  ⟨by decide, years_int_eq_floor_years_float 143 (by decide)⟩

/-! ### Verification persistence (claim C10) -/

/-- A verification result with one matched and one mismatched document,
as persisted by the failed branch of `process_ocr_llm_verification`. -/
def sampleFailedResult : VerificationResult :=
  ⟨"failed", 1, 2,
    [⟨some 1, "Class 10", true, 1, true, true⟩,
     ⟨some 2, "Class 12", true, 1, false, false⟩],
    [⟨some 2, "Class 12", "dob", "01-01-1990", "02-01-1990", none, "dob mismatch"⟩],
    none⟩

/-- C10 counterexample: when the aggregate status is `failed` because a
sibling document mismatched, a document whose individual `overall_match`
was true receives *no* per-document status update at all — only the
mismatched documents are updated (to `failed`).  Here document 1 matched
(`overall_match = true`) yet the only persisted update is for document 2. -/
theorem persist_skips_matched_doc_counterexample :
    (verify_documents "JOHN" "01-01-1990"
      [⟨some 1, some "Class 10", some "JOHN", some "01-01-1990"⟩,
       ⟨some 2, some "Class 12", some "JOHN", some "02-01-1990"⟩]).map
      (fun r => r.comparisons.map fun c => (c.document_id, c.overall_match)) =
      some [(some 1, true), (some 2, false)] ∧
    (verify_documents "JOHN" "01-01-1990"
      [⟨some 1, some "Class 10", some "JOHN", some "01-01-1990"⟩,
       ⟨some 2, some "Class 12", some "JOHN", some "02-01-1990"⟩]).map
      (fun r => ((persistVerification r).1,
        (persistVerification r).2.map fun u => (u.document_id, u.status))) =
      some ("failed", [(some 2, "failed")]) := by decide

/-- C10 (amended): the caller persists per-document statuses that may
differ from the aggregate, but only in one direction: when the aggregate
is `verified` every matched document is marked `verified`; when it is
not, the worker is marked `failed` and only the documents in the
mismatch list are updated (to `failed`) — a matched document whose id is
not among the mismatches receives no update, so it is never marked
`verified` under a failed aggregate. -/
theorem persistVerification_characterization (r : VerificationResult) :
    ((persistVerification r).1 =
      if r.status = "verified" then "verified" else "failed") ∧
    (r.status = "verified" → ∀ c ∈ r.comparisons, c.overall_match = true →
      (⟨c.document_id, "verified", none, none⟩ : DocUpdate) ∈
        (persistVerification r).2) ∧
    (r.status ≠ "verified" → ∀ u ∈ (persistVerification r).2,
      u.status = "failed" ∧ ∃ mm ∈ r.mismatches, u.document_id = mm.document_id) ∧
    (r.status ≠ "verified" → ∀ c ∈ r.comparisons,
      (∀ mm ∈ r.mismatches, mm.document_id ≠ c.document_id) →
      ∀ u ∈ (persistVerification r).2, u.document_id ≠ c.document_id) := by
  unfold persistVerification
  by_cases hs : r.status = "verified"
  · refine ⟨by simp [hs], fun _ c hc hov => ?_, fun hne => absurd hs hne,
      fun hne => absurd hs hne⟩
    simp only [hs, if_pos rfl]
    exact List.mem_map_of_mem _ (List.mem_filter.mpr ⟨hc, by simp [hov]⟩)
  · refine ⟨by simp [hs], fun hv => absurd hv hs, fun _ u hu => ?_, ?_⟩
    · simp only [hs, if_neg hs] at hu
      obtain ⟨mm, hmm, rfl⟩ := List.mem_map.mp hu
      exact ⟨rfl, mm, hmm, rfl⟩
    · intro _ c _ hnot u hu
      simp only [hs, if_neg hs] at hu
      obtain ⟨mm, hmm, rfl⟩ := List.mem_map.mp hu
      exact hnot mm hmm

/-- C10 witness: the no-update clause applied to the matched document of
`sampleFailedResult` and its only persisted update. -/
theorem persistVerification_characterization_witness :
    (⟨some 2, "failed", some "dob", some "dob mismatch"⟩ : DocUpdate).document_id ≠
      (⟨some 1, "Class 10", true, 1, true, true⟩ : Comparison).document_id :=
  (persistVerification_characterization sampleFailedResult).2.2.2 (by decide)
    ⟨some 1, "Class 10", true, 1, true, true⟩ (by decide) (by decide)
    ⟨some 2, "failed", some "dob", some "dob mismatch"⟩ (by decide)

end Poc
